import Mathlib

/-!
Verification of the ETF return-comparison analysis pipeline
(`etf_performance_analyzer.py`).

The Python program is embedded shallowly:
* prices are rationals (`ℚ`), dates are integers (day numbers),
* a pandas price frame becomes a `List PriceRow` sorted by ascending date,
* the un-listed marker `'미출시'` becomes `Option.none`,
* the external market-data API (`pykrx`) becomes explicit function
  parameters carrying the data it would return,
* the side-effecting `run` pipeline becomes a function returning the
  list of export/notification events it performs, in order.
-/

namespace ETF

/-! ### String keyword matching (Python's `kw in name`) -/

/-- `startsWithList kw s` is true when `s` begins with `kw`. -/
def startsWithList : List Char → List Char → Bool
  | [], _ => true
  | _ :: _, [] => false
  | a :: as, b :: bs => a = b && startsWithList as bs

/-- `containsSeq kw s` is true when `kw` occurs contiguously inside `s`. -/
def containsSeq (kw : List Char) : List Char → Bool
  | [] => startsWithList kw []
  | c :: t => startsWithList kw (c :: t) || containsSeq kw t

/-- Python's substring test `kw in name`. -/
def containsSub (name kw : String) : Bool :=
  containsSeq kw.toList name.toList

/-! ### `classify_etf` (lines 85–156)

The Python function mutates a dict field by field; each field's final
value depends only on `name` (and, for the currency-hedge field, on the
already-computed domestic/overseas field), so the embedding computes
each field with its own function, in the source's assignment order. -/

/-- The five categorical tags of `classify_etf`. -/
structure Classification where
  sector : String          -- 'ETF섹터'
  domesticOverseas : String -- '국내외구분'
  leverage : String        -- '레버리지'
  currencyHedge : String   -- '환헤지'
  dividendStyle : String   -- '배당유형'
deriving DecidableEq, Repr

/-- `overseas_keywords` from the source. -/
def overseas_keywords : List String :=
  ["미국", "S&P", "NASDAQ", "SPY", "나스닥", "중국", "일본",
   "유럽", "글로벌", "MSCI", "선진국", "이머징", "베트남",
   "인도", "USA", "China", "Japan", "Europe"]

/-- Domestic/overseas tag ('국내외구분'): '해외' when any overseas keyword
occurs in the name, else the initial value '국내'. -/
def domesticOverseasTag (name : String) : String :=
  if overseas_keywords.any (fun kw => containsSub name kw) then "해외" else "국내"

/-- Leverage tag ('레버리지'), following the source's if/elif chain. -/
def leverageTag (name : String) : String :=
  if containsSub name "LEVERAGE" || containsSub name "레버리지" then
    if containsSub name "2X" || containsSub name "2배" then "2배"
    else if containsSub name "3X" || containsSub name "3배" then "3배"
    else "2배"
  else if containsSub name "INVERSE" || containsSub name "인버스" ||
          containsSub name "곱버스" || containsSub name "Short" then "인버스"
  else "없음"

/-- Currency-hedge tag ('환헤지'): only overseas funds get a hedge tag;
domestic funds keep the initial value '해당없음'. -/
def currencyHedgeTag (name : String) : String :=
  if domesticOverseasTag name = "해외" then
    if containsSub name "환헤지" || containsSub name "(H)" ||
       containsSub name "Hedged" then "환헤지"
    else "환노출"
  else "해당없음"

/-- Dividend-style tag ('배당유형'). -/
def dividendStyleTag (name : String) : String :=
  if containsSub name "배당" || containsSub name "DIV" ||
     containsSub name "Dividend" || containsSub name "고배당" then "배당형"
  else if containsSub name "성장" || containsSub name "Growth" then "성장형"
  else "일반"

/-- `sector_keywords` from the source, in dict insertion order. -/
def sector_keywords : List (String × List String) :=
  [("반도체", ["반도체", "칩", "Chip", "Semi", "필라델피아", "SOX"]),
   ("IT/테크", ["IT", "인터넷", "테크", "Tech", "Technology", "Internet",
               "소프트웨어", "Cloud", "Cyber", "Software"]),
   ("2차전지", ["2차전지", "배터리", "Battery", "전기차"]),
   ("바이오", ["바이오", "Bio", "제약", "Pharma", "헬스케어", "Healthcare", "Health"]),
   ("금융", ["금융", "은행", "Bank", "Finance", "Financial"]),
   ("에너지", ["에너지", "Energy", "원유", "Oil", "Gas"]),
   ("부동산", ["리츠", "REIT", "부동산", "Real Estate"]),
   ("채권", ["채권", "Bond", "국채", "회사채", "Treasury", "TLT"]),
   ("원자재", ["금", "Gold", "은", "Silver", "원자재", "Commodity"]),
   ("자동차", ["자동차", "Auto", "Car", "Mobility", "Vehicle"]),
   ("종합지수", ["KOSPI", "KOSDAQ", "KRX", "S&P500", "NASDAQ100", "Russell", "Dow", "QQQ"])]

/-- Sector tag ('ETF섹터'): the first sector whose keyword list has a
match in the name (the Python `for`/`break` loop), else '기타'. -/
def sectorTag (name : String) : String :=
  match sector_keywords.find? (fun p => p.2.any (fun kw => containsSub name kw)) with
  | some p => p.1
  | none => "기타"

/-- `classify_etf(name, code)`.  The `code` parameter is accepted, as in
the source, but never read. -/
def classify_etf (name : String) (_code : String) : Classification :=
  { sector := sectorTag name
    domesticOverseas := domesticOverseasTag name
    leverage := leverageTag name
    currencyHedge := currencyHedgeTag name
    dividendStyle := dividendStyleTag name }

/-! ### `calculate_returns` (lines 185–235)

The pandas frame returned by `get_etf_ohlcv_by_date` becomes a list of
rows sorted by ascending date; the first row is the listing date. -/

/-- One row of the fetched price history: a trading day (as an integer
day number) and the closing price ('종가'). -/
structure PriceRow where
  date : ℤ
  close : ℚ
deriving DecidableEq, Repr

/-- The ten look-back windows and their day counts, in source order. -/
def periods : List (String × ℤ) :=
  [("1일", 1), ("3일", 3), ("1주", 7), ("2주", 14), ("1개월", 30),
   ("3개월", 90), ("6개월", 180), ("12개월", 365), ("3년", 365 * 3), ("5년", 365 * 5)]

/-- The window names, in source order. -/
def periodNames : List String := periods.map Prod.fst

/-- Python's `round(x, 2)` on an exact value: round to two decimal
places, ties to the even hundredth (banker's rounding). -/
def pyRound2 (x : ℚ) : ℚ :=
  let y := x * 100
  let f := ⌊y⌋
  let n : ℤ :=
    if y - f < 1 / 2 then f
    else if 1 / 2 < y - f then f + 1
    else if f % 2 = 0 then f else f + 1
  (n : ℚ) / 100

/-- `df.loc[d, '종가']`: the close of the row indexed by date `d`,
`none` when `d` is not in the frame (pandas raises `KeyError`, which the
per-period `except` turns into the un-listed marker). -/
def lookupClose (df : List PriceRow) (d : ℤ) : Option ℚ :=
  (df.find? (fun r => r.date = d)).map (fun r => r.close)

/-- The body of the per-period loop of `calculate_returns`: `none`
models the un-listed marker '미출시'.

Source order: target date, listing-date check, base-price lookup,
`available_dates = df.index[df.index <= target_date]`, emptiness check,
then the return formula on the last available date. -/
def periodReturn (df : List PriceRow) (baseDate : ℤ) (days : ℤ) : Option ℚ :=
  match df.head? with
  | none => none
  | some listing =>
    let target := baseDate - days
    if target < listing.date then none
    else
      match lookupClose df baseDate with
      | none => none
      | some basePrice =>
        match (df.filter (fun r => r.date ≤ target)).getLast? with
        | none => none
        | some row => some (pyRound2 ((basePrice - row.close) / row.close * 100))

/-- `calculate_returns(ticker, base_date)`: the fetched history `df` is
passed in; an empty frame yields the un-listed marker for every window. -/
def calculate_returns (df : List PriceRow) (baseDate : ℤ) : List (String × Option ℚ) :=
  if df.isEmpty then periods.map (fun p => (p.1, none))
  else periods.map (fun p => (p.1, periodReturn df baseDate p.2))

/-! ### `get_etf_nav` (lines 237–253) -/

/-- `get_etf_nav(ticker, date)`: the ohlcv row fetched for `date` is
passed in as `some (close, volume)` (or `none` when the fetch fails or
is empty, in which case the source returns `0`). -/
def get_etf_nav (ohlcv : Option (ℚ × ℚ)) : ℚ :=
  match ohlcv with
  | some pv => pv.1 * pv.2 / 100000
  | none => 0

/-! ### Per-window ranking (lines 321–330)

`df.loc[valid, col].rank(ascending=False, method='min').astype(int)`:
pandas sorts the numeric values descending and gives each value the rank
of its first (minimal) position, 1-based; rows holding the un-listed
marker get the marker instead. -/

/-- The rank column for one window: `values` lists every fund's return
for that window (`none` = '미출시'). -/
def rankColumn (values : List (Option ℚ)) : List (Option ℕ) :=
  let valid := values.filterMap id
  let sorted := valid.mergeSort (fun a b => b ≤ a)
  values.map (fun v =>
    v.map (fun x => (sorted.takeWhile (fun y => decide (x < y))).length + 1))

/-! ### `analyze_etfs` record assembly (lines 292–330) -/

/-- One fund as the analysis loop sees it: ticker name ('종목명'),
ticker code ('종목코드'), and the price history the return computation
fetches for it. -/
structure FundInput where
  name : String
  code : String
  history : List PriceRow
deriving DecidableEq, Repr

/-- One row of the analysis frame: identification, the five tags, and
for each window a (return, rank) pair keyed by the window name. -/
structure FundRecord where
  name : String
  code : String
  classification : Classification
  pairs : List (String × Option ℚ × Option ℕ)
deriving DecidableEq, Repr

/-- The ten return values of one fund, in window order. -/
def returnsRow (f : FundInput) (b : ℤ) : List (Option ℚ) :=
  (calculate_returns f.history b).map Prod.snd

/-- Steps 3 and 4 of `analyze_etfs`: per-fund returns and
classification, then per-window rank columns over all funds. -/
def buildRecords (funds : List FundInput) (b : ℤ) : List FundRecord :=
  let table := funds.map (fun f => returnsRow f b)
  let rankCols := (List.range periods.length).map
    (fun k => rankColumn (table.map (fun row => row.getD k none)))
  funds.enum.map (fun jf =>
    { name := jf.2.name
      code := jf.2.code
      classification := classify_etf jf.2.name jf.2.code
      pairs := (List.range periods.length).map (fun k =>
        (periodNames.getD k "",
         (table.getD jf.1 []).getD k none,
         (rankCols.getD k []).getD jf.1 none)) })

/-- The 12-month return stored in a record ('12개월_수익률'). -/
def ret12 (r : FundRecord) : Option ℚ :=
  match r.pairs.find? (fun p => p.1 = "12개월") with
  | some p => p.2.1
  | none => none

/-- Step 5 of `analyze_etfs` (lines 332–347): split on the validity of
the 12-month return, sort the valid rows descending by it, then emit
`head(50)` tagged '상위 50개', `tail(50)` tagged '하위 50개', and the
invalid rows tagged '미출시(1년)'. -/
def splitTopBottom (recs : List FundRecord) : List (FundRecord × String) :=
  let valid := recs.filter (fun r => (ret12 r).isSome)
  let invalid := recs.filter (fun r => !(ret12 r).isSome)
  let sorted := valid.mergeSort (fun a b => (ret12 b).getD 0 ≤ (ret12 a).getD 0)
  (sorted.take 50).map (fun r => (r, "상위 50개"))
    ++ (sorted.drop (sorted.length - 50)).map (fun r => (r, "하위 50개"))
    ++ invalid.map (fun r => (r, "미출시(1년)"))

/-- The final analysis frame: records with their '구분' group tag. -/
def finalOutput (funds : List FundInput) (b : ℤ) : List (FundRecord × String) :=
  splitTopBottom (buildRecords funds b)

/-! ### `get_last_trading_day` (lines 42–64) and `run` (lines 553–580)

`datetime.now()` becomes a `Today` value (day number plus Python
`weekday()`, Monday = 0 … Sunday = 6); the `pykrx` index probe
`get_index_ohlcv(d, d, "1001")` becomes a predicate `api : ℤ → Bool`
that is true when the probe succeeds with a non-empty frame. -/

structure Today where
  date : ℤ
  weekday : ℕ
deriving DecidableEq, Repr

/-- `get_previous_trading_day(from_date)`: probe `from_date - i` for
`i in range(1, 10)`; on total failure fall back to `now - 5` days. -/
def get_previous_trading_day (api : ℤ → Bool) (fromDate nowDate : ℤ) : ℤ :=
  match (List.range' 1 9).find? (fun i => api (fromDate - i)) with
  | some i => fromDate - i
  | none => nowDate - 5

/-- `get_last_trading_day()`: Mondays and Sundays return `None` at
once; otherwise yesterday, falling back to the previous trading day
when the probe finds no data.  (The later Monday/Sunday offsets in the
source are unreachable after the early return; they are kept.) -/
def get_last_trading_day (api : ℤ → Bool) (t : Today) : Option ℤ :=
  if t.weekday = 0 ∨ t.weekday = 6 then none
  else
    let lastDay :=
      if t.weekday = 0 then t.date - 3
      else if t.weekday = 6 then t.date - 2
      else t.date - 1
    if api lastDay then some lastDay
    else some (get_previous_trading_day api lastDay t.date)

/-- `analyze_etfs()` as far as the claims need it: `None` when there is
no base date, otherwise the final frame built from the fetched funds. -/
def analyze_etfs (api : ℤ → Bool) (t : Today) (funds : List FundInput) :
    Option (List (FundRecord × String)) :=
  match get_last_trading_day api t with
  | none => none
  | some b => some (finalOutput funds b)

/-- The observable actions of `run()`, in program order. -/
inductive Event where
  | exportJSON
  | exportExcel
  | exportMarkdown
  | sendTelegram
deriving DecidableEq, Repr

/-- `run()`: analyze; on `None` stop with no exports and no message,
otherwise save JSON, Excel and Markdown, then send the Telegram
summary.  Returns the result together with the event trace. -/
def run (api : ℤ → Bool) (t : Today) (funds : List FundInput) :
    Option (List (FundRecord × String)) × List Event :=
  match analyze_etfs api t funds with
  | none => (none, [])
  | some df =>
    (some df,
     [Event.exportJSON, Event.exportExcel, Event.exportMarkdown, Event.sendTelegram])

/-! ### Concrete sample data used by witnesses -/

/-- A single fund with an empty fetched price history. -/
def fundsEx : List FundInput := [⟨"A", "0001", []⟩]

/-- The record the pipeline builds for the fund of `fundsEx`: every
window un-listed, hence no rank. -/
def recA : FundRecord :=
  { name := "A", code := "0001", classification := classify_etf "A" "0001",
    pairs := [("1일", none, none), ("3일", none, none), ("1주", none, none),
              ("2주", none, none), ("1개월", none, none), ("3개월", none, none),
              ("6개월", none, none), ("12개월", none, none), ("3년", none, none),
              ("5년", none, none)] }

/-- A record whose 12-month return is numeric. -/
def recB : FundRecord :=
  { name := "B", code := "0002", classification := classify_etf "B" "0002",
    pairs := [("12개월", some 5, some 1)] }

/-! ## Theorems -/

/-- C5 (counterexample): the claim "the estimated traded-value proxy
equals the closing price multiplied by the traded volume" is false on
the code: with close 2 and volume 100000 the operation returns
2 × 100000 / 100000 = 2, not 200000. -/
theorem get_etf_nav_claim_false :
    get_etf_nav (some (2, 100000)) ≠ 2 * 100000 := by
  norm_num [get_etf_nav]

/-- C5 (amended): for every fund whose price data for the base date is
available, the estimated traded-value proxy equals the closing price
multiplied by the traded volume, divided by 100000 (the source's
억-원 unit scaling). -/
theorem get_etf_nav_formula (price volume : ℚ) :
    get_etf_nav (some (price, volume)) = price * volume / 100000 := rfl

/-- C6: classification is name-keyword matching only — for every
display name and any two ticker codes, `classify_etf` returns the same
five categorical tags; the ticker-code argument has no influence. -/
theorem classify_etf_ignores_code (name code1 code2 : String) :
    classify_etf name code1 = classify_etf name code2 := rfl

/-- C7: on every run that produces a result, the pipeline emits the
JSON file first, then the styled spreadsheet, then the Markdown
summary, and pushes the Telegram digest last, after all three file
exports. -/
theorem run_event_order (api : ℤ → Bool) (t : Today) (funds : List FundInput)
    (df : List (FundRecord × String)) (h : (run api t funds).1 = some df) :
    (run api t funds).2 =
      [Event.exportJSON, Event.exportExcel, Event.exportMarkdown, Event.sendTelegram] := by
  cases ha : analyze_etfs api t funds with
  | none => simp [run, ha] at h
  | some d => simp [run, ha]

/-- Witness for C7 at a Wednesday run over an empty fund list. -/
theorem run_event_order_witness :
    (run (fun _ => true) ⟨100, 2⟩ []).2 =
      [Event.exportJSON, Event.exportExcel, Event.exportMarkdown, Event.sendTelegram] :=
  run_event_order (fun _ => true) ⟨100, 2⟩ [] []
    (by simp [run, analyze_etfs, get_last_trading_day, finalOutput, splitTopBottom,
              buildRecords, List.mergeSort_nil])

/-- In a frame sorted by strictly ascending date, the last row has the
largest date. -/
theorem getLast?_date_max :
    ∀ {l : List PriceRow}, l.Pairwise (fun a b => a.date < b.date) →
      ∀ {x : PriceRow}, l.getLast? = some x → ∀ r ∈ l, r.date ≤ x.date := by
  intro l
  induction l with
  | nil => intro _ x hx; cases hx
  | cons a t ih =>
    intro hs x hx r hr
    cases t with
    | nil =>
      simp only [List.getLast?_singleton, Option.some.injEq] at hx
      simp only [List.mem_singleton] at hr
      subst hx; subst hr
      exact le_refl _
    | cons b t' =>
      rw [List.getLast?_cons_cons] at hx
      rcases List.mem_cons.mp hr with rfl | hr'
      · have hxm : x ∈ b :: t' := List.mem_of_getLast?_eq_some hx
        exact le_of_lt ((List.pairwise_cons.mp hs).1 x hxm)
      · exact ih (List.pairwise_cons.mp hs).2 hx r hr'

/-- Destructing a numeric period return: the base price comes from the
base-date row, the past price from the last row dated on or before the
target date, and the value is the rounded percentage-return formula. -/
theorem periodReturn_some_elim {df : List PriceRow} {baseDate days : ℤ} {v : ℚ}
    (h : periodReturn df baseDate days = some v) :
    ∃ basePrice row,
      lookupClose df baseDate = some basePrice ∧
      (df.filter (fun r => r.date ≤ baseDate - days)).getLast? = some row ∧
      v = pyRound2 ((basePrice - row.close) / row.close * 100) := by
  simp only [periodReturn] at h
  cases hh : df.head? with
  | none => rw [hh] at h; cases h
  | some listing =>
    rw [hh] at h
    simp only at h
    by_cases ht : baseDate - days < listing.date
    · rw [if_pos ht] at h; cases h
    · rw [if_neg ht] at h
      cases hb : lookupClose df baseDate with
      | none => rw [hb] at h; cases h
      | some bp =>
        rw [hb] at h
        cases hr : (df.filter (fun r => r.date ≤ baseDate - days)).getLast? with
        | none => rw [hr] at h; cases h
        | some row =>
          rw [hr] at h
          refine ⟨bp, row, rfl, rfl, ?_⟩
          injection h with h2
          exact h2.symm

/-- C1: for every fund and every look-back window for which a past
price is found (the period return is numeric), the computed percentage
return equals (price at the base date − price at the looked-up past
date) / (price at the past date) × 100, rounded to two decimal
places. -/
theorem periodReturn_formula (df : List PriceRow) (baseDate days : ℤ) (v : ℚ)
    (h : periodReturn df baseDate days = some v) :
    ∃ basePrice row,
      lookupClose df baseDate = some basePrice ∧
      (df.filter (fun r => r.date ≤ baseDate - days)).getLast? = some row ∧
      v = pyRound2 ((basePrice - row.close) / row.close * 100) :=
  periodReturn_some_elim h

/-- Witness for C1: a two-row history, base date 10, one-day window;
the return is (2 − 1) / 1 × 100 = 100. -/
theorem periodReturn_formula_witness :
    ∃ basePrice row,
      lookupClose [⟨0, 1⟩, ⟨10, 2⟩] 10 = some basePrice ∧
      (([⟨0, 1⟩, ⟨10, 2⟩] : List PriceRow).filter
        (fun r => r.date ≤ 10 - 1)).getLast? = some row ∧
      (100 : ℚ) = pyRound2 ((basePrice - row.close) / row.close * 100) :=
  periodReturn_formula [⟨0, 1⟩, ⟨10, 2⟩] 10 1 100
    (by simp [periodReturn, lookupClose, pyRound2]; norm_num)

/-- C2: the past price is looked up with a calendar fallback.  In a
history sorted by ascending trading day: an empty history gives the
un-listed marker; a target date before the first listed trading day
gives the marker; no trading day on or before the target gives the
marker; and every numeric return is computed from the latest trading
day on or before the target date (the target itself when it is a
trading day). -/
theorem periodReturn_calendar_fallback (df : List PriceRow)
    (hsort : df.Pairwise (fun a b => a.date < b.date)) (baseDate days : ℤ) :
    (df.head? = none → periodReturn df baseDate days = none) ∧
    (∀ listing, df.head? = some listing → baseDate - days < listing.date →
      periodReturn df baseDate days = none) ∧
    ((∀ r ∈ df, ¬ r.date ≤ baseDate - days) → periodReturn df baseDate days = none) ∧
    (∀ v, periodReturn df baseDate days = some v →
      ∃ basePrice row,
        lookupClose df baseDate = some basePrice ∧
        row ∈ df ∧ row.date ≤ baseDate - days ∧
        (∀ r ∈ df, r.date ≤ baseDate - days → r.date ≤ row.date) ∧
        v = pyRound2 ((basePrice - row.close) / row.close * 100)) := by
  refine ⟨?_, ?_, ?_, ?_⟩
  · intro h; simp [periodReturn, h]
  · intro listing hl hlt
    simp only [periodReturn]
    rw [hl]
    simp only
    rw [if_pos hlt]
  · intro hno
    cases hh : df.head? with
    | none => simp [periodReturn, hh]
    | some listing =>
      have hmem : listing ∈ df := by
        rcases List.head?_eq_some_iff.mp hh with ⟨ys, rfl⟩
        exact List.mem_cons_self _ _
      have hlt : baseDate - days < listing.date := by
        have := hno listing hmem
        omega
      simp only [periodReturn]
      rw [hh]
      simp only
      rw [if_pos hlt]
  · intro v h
    obtain ⟨bp, row, hb, hr, hv⟩ := periodReturn_some_elim h
    have hrowf := List.mem_of_getLast?_eq_some hr
    have hmf := List.mem_filter.mp hrowf
    have hpf : (df.filter (fun r => decide (r.date ≤ baseDate - days))).Pairwise
        (fun a b => a.date < b.date) := hsort.filter _
    have hmax := getLast?_date_max hpf hr
    refine ⟨bp, row, hb, hmf.1, of_decide_eq_true hmf.2, ?_, hv⟩
    intro r hrdf hrle
    exact hmax r (List.mem_filter.mpr ⟨hrdf, decide_eq_true hrle⟩)

/-- Witness for C2 on a sorted two-row history. -/
theorem periodReturn_calendar_fallback_witness :
    (([⟨0, 1⟩, ⟨10, 2⟩] : List PriceRow).head? = none →
      periodReturn [⟨0, 1⟩, ⟨10, 2⟩] 10 1 = none) ∧
    (∀ listing, ([⟨0, 1⟩, ⟨10, 2⟩] : List PriceRow).head? = some listing →
      10 - 1 < listing.date → periodReturn [⟨0, 1⟩, ⟨10, 2⟩] 10 1 = none) ∧
    ((∀ r ∈ ([⟨0, 1⟩, ⟨10, 2⟩] : List PriceRow), ¬ r.date ≤ 10 - 1) →
      periodReturn [⟨0, 1⟩, ⟨10, 2⟩] 10 1 = none) ∧
    (∀ v, periodReturn [⟨0, 1⟩, ⟨10, 2⟩] 10 1 = some v →
      ∃ basePrice row,
        lookupClose [⟨0, 1⟩, ⟨10, 2⟩] 10 = some basePrice ∧
        row ∈ ([⟨0, 1⟩, ⟨10, 2⟩] : List PriceRow) ∧ row.date ≤ 10 - 1 ∧
        (∀ r ∈ ([⟨0, 1⟩, ⟨10, 2⟩] : List PriceRow), r.date ≤ 10 - 1 → r.date ≤ row.date) ∧
        v = pyRound2 ((basePrice - row.close) / row.close * 100)) :=
  periodReturn_calendar_fallback [⟨0, 1⟩, ⟨10, 2⟩] (by decide) 10 1

/-- In a descending-sorted list, the prefix of values above a threshold
is exactly the set of values above it. -/
theorem length_takeWhile_gt_of_sorted :
    ∀ {l : List ℚ}, l.Pairwise (fun a b => b ≤ a) → ∀ x : ℚ,
      (l.takeWhile (fun y => decide (x < y))).length = l.countP (fun y => decide (x < y)) := by
  intro l
  induction l with
  | nil => intro _ x; rfl
  | cons a t ih =>
    intro hs x
    rw [List.takeWhile_cons, List.countP_cons]
    by_cases hx : x < a
    · have ihh := ih (List.pairwise_cons.mp hs).2 x
      simp [hx, ihh]
    · have hzero : t.countP (fun y => decide (x < y)) = 0 := by
        rw [List.countP_eq_zero]
        intro y hy
        have hya : y ≤ a := (List.pairwise_cons.mp hs).1 y hy
        simp only [decide_eq_true_eq]
        intro hlt
        exact hx (lt_of_lt_of_le hlt hya)
      simp [hx, hzero]

/-- Sorting with the flipped comparison yields a descending list. -/
theorem sorted_desc_mergeSort (l : List ℚ) :
    (l.mergeSort (fun a b => decide (b ≤ a))).Pairwise (fun a b : ℚ => b ≤ a) := by
  have h := @List.sorted_mergeSort ℚ (fun a b : ℚ => decide (b ≤ a))
    (fun a b c hab hbc =>
      decide_eq_true (le_trans (of_decide_eq_true hbc) (of_decide_eq_true hab)))
    (fun a b => by simpa [Bool.or_eq_true, decide_eq_true_eq] using (le_total b a)) l
  exact h.imp (fun hab => of_decide_eq_true hab)

/-- C3: per-window ranking.  Every fund whose return for the window is
numeric gets rank 1 plus the number of funds with a strictly greater
return for that window (descending `method='min'` ranking, ties sharing
the minimal rank), and every fund whose return is the un-listed marker
gets the marker (`none`) in place of a rank. -/
theorem rankColumn_spec (values : List (Option ℚ)) :
    rankColumn values = values.map (fun v => v.map (fun x =>
      1 + values.countP (fun w => (w.map (fun y => decide (x < y))).getD false))) := by
  unfold rankColumn
  apply List.map_congr_left
  intro v _
  cases v with
  | none => rfl
  | some x =>
    simp only [Option.map_some']
    congr 1
    rw [length_takeWhile_gt_of_sorted (sorted_desc_mergeSort _) x]
    rw [(List.mergeSort_perm (values.filterMap id) _).countP_eq]
    rw [List.countP_filterMap]
    simp only [id_eq]
    omega

/-- C8: for every input name and code the classification returns a
record with exactly five tags, each drawn from its fixed value set, and
the currency-hedge tag is '해당없음' (not applicable) exactly when the
domestic/overseas tag is '국내' (domestic). -/
theorem classify_etf_invariant (name code : String) :
    (classify_etf name code).sector ∈
      (["반도체", "IT/테크", "2차전지", "바이오", "금융", "에너지",
        "부동산", "채권", "원자재", "자동차", "종합지수", "기타"] : List String) ∧
    (classify_etf name code).domesticOverseas ∈ (["국내", "해외"] : List String) ∧
    (classify_etf name code).leverage ∈ (["없음", "2배", "3배", "인버스"] : List String) ∧
    (classify_etf name code).currencyHedge ∈ (["해당없음", "환헤지", "환노출"] : List String) ∧
    (classify_etf name code).dividendStyle ∈ (["일반", "배당형", "성장형"] : List String) ∧
    ((classify_etf name code).currencyHedge = "해당없음" ↔
      (classify_etf name code).domesticOverseas = "국내") := by
  refine ⟨?_, ?_, ?_, ?_, ?_, ?_⟩
  · show sectorTag name ∈ _
    unfold sectorTag
    cases h : sector_keywords.find? (fun p => p.2.any (fun kw => containsSub name kw)) with
    | none => simp
    | some p =>
      have hp := List.mem_of_find?_eq_some h
      have hm : p.1 ∈ sector_keywords.map Prod.fst := List.mem_map_of_mem Prod.fst hp
      have hsub : ∀ s ∈ sector_keywords.map Prod.fst,
          s ∈ (["반도체", "IT/테크", "2차전지", "바이오", "금융", "에너지",
                "부동산", "채권", "원자재", "자동차", "종합지수", "기타"] : List String) := by
        decide
      exact hsub _ hm
  · show domesticOverseasTag name ∈ _
    unfold domesticOverseasTag
    split <;> simp
  · show leverageTag name ∈ _
    unfold leverageTag
    split
    · split
      · simp
      · split <;> simp
    · split <;> simp
  · show currencyHedgeTag name ∈ _
    unfold currencyHedgeTag
    split
    · split <;> simp
    · simp
  · show dividendStyleTag name ∈ _
    unfold dividendStyleTag
    split
    · simp
    · split <;> simp
  · show currencyHedgeTag name = "해당없음" ↔ domesticOverseasTag name = "국내"
    by_cases hd : domesticOverseasTag name = "해외"
    · have h1 : currencyHedgeTag name ≠ "해당없음" := by
        unfold currencyHedgeTag
        rw [if_pos hd]
        split <;> decide
      have h2 : domesticOverseasTag name ≠ "국내" := by
        rw [hd]; decide
      exact iff_of_false h1 h2
    · have h2 : domesticOverseasTag name = "국내" := by
        unfold domesticOverseasTag at hd ⊢
        by_cases hc : overseas_keywords.any (fun kw => containsSub name kw)
        · exact absurd (if_pos hc) hd
        · exact if_neg hc
      have h1 : currencyHedgeTag name = "해당없음" := by
        unfold currencyHedgeTag
        exact if_neg hd
      exact iff_of_true h1 h2

/-- Whatever tuple structure fills the pair values, the window keys of
a built record are exactly the ten window names. -/
theorem pairs_keys_aux (g : ℕ → Option ℚ × Option ℕ) :
    ((List.range periods.length).map
      (fun k => ((periodNames.getD k "" : String), g k))).map Prod.fst = periodNames := by
  have h : ((List.range periods.length).map
      (fun k => ((periodNames.getD k "" : String), g k))).map Prod.fst =
      (List.range periods.length).map (fun k => periodNames.getD k "") := by
    simp [List.map_map, Function.comp]
  rw [h]
  decide

/-- Every record assembled by step 3/4 carries the ten window keys. -/
theorem buildRecords_pairs_keys (funds : List FundInput) (b : ℤ) :
    ∀ r ∈ buildRecords funds b, r.pairs.map Prod.fst = periodNames := by
  intro r hr
  unfold buildRecords at hr
  obtain ⟨jf, _, rfl⟩ := List.mem_map.mp hr
  apply pairs_keys_aux

/-- The top/bottom split only rearranges, duplicates and tags records:
every record in its output comes from its input. -/
theorem mem_splitTopBottom_mem (recs : List FundRecord) (p : FundRecord × String)
    (hp : p ∈ splitTopBottom recs) : p.1 ∈ recs := by
  set valid := recs.filter (fun r => (ret12 r).isSome) with hvalid
  set sorted :=
    valid.mergeSort (fun a b => decide ((ret12 b).getD 0 ≤ (ret12 a).getD 0)) with hsorted
  have hsplit : splitTopBottom recs =
      (sorted.take 50).map (fun r => (r, "상위 50개")) ++
      (sorted.drop (sorted.length - 50)).map (fun r => (r, "하위 50개")) ++
      (recs.filter (fun r => !(ret12 r).isSome)).map (fun r => (r, "미출시(1년)")) := rfl
  rw [hsplit] at hp
  simp only [List.mem_append] at hp
  rcases hp with (h | h) | h
  · obtain ⟨r, hr, rfl⟩ := List.mem_map.mp h
    exact (List.mem_filter.mp (List.mem_mergeSort.mp (List.mem_of_mem_take hr))).1
  · obtain ⟨r, hr, rfl⟩ := List.mem_map.mp h
    exact (List.mem_filter.mp (List.mem_mergeSort.mp (List.mem_of_mem_drop hr))).1
  · obtain ⟨r, hr, rfl⟩ := List.mem_map.mp h
    exact (List.mem_filter.mp hr).1

/-- C4: the return computation produces exactly the ten look-back
windows in source order, and every record in the final output carries
exactly one (return, rank) pair for each of the ten windows — its pair
keys are exactly `periodNames`. -/
theorem output_ten_windows (funds : List FundInput) (b : ℤ) (df : List PriceRow) :
    ((calculate_returns df b).map Prod.fst = periodNames) ∧
    (∀ rec ∈ finalOutput funds b, rec.1.pairs.map Prod.fst = periodNames) := by
  constructor
  · unfold calculate_returns
    by_cases h : df.isEmpty
    · simp only [h, if_true]
      simp [List.map_map, Function.comp, periodNames]
    · simp only [h, if_false]
      simp [List.map_map, Function.comp, periodNames]
  · intro rec hrec
    exact buildRecords_pairs_keys funds b rec.1 (mem_splitTopBottom_mem _ _ hrec)

/-- The pipeline builds exactly one record for the fund of `fundsEx`. -/
theorem buildRecords_fundsEx : buildRecords fundsEx 10 = [recA] := rfl

/-- The final output for `fundsEx`: the single record, 12-month
un-listed, tagged '미출시(1년)'. -/
theorem finalOutput_fundsEx : finalOutput fundsEx 10 = [(recA, "미출시(1년)")] := by
  unfold finalOutput
  rw [buildRecords_fundsEx]
  unfold splitTopBottom
  simp [List.mergeSort_nil, ret12, recA]

/-- Witness for C4 at an empty history and the one-fund input. -/
theorem output_ten_windows_witness :
    ((calculate_returns [] 10).map Prod.fst = periodNames) ∧
    ((recA, "미출시(1년)") ∈ finalOutput fundsEx 10 ∧
      recA.pairs.map Prod.fst = periodNames) := by
  have hmem : (recA, "미출시(1년)") ∈ finalOutput fundsEx 10 := by
    rw [finalOutput_fundsEx]
    exact List.mem_singleton_self _
  exact ⟨(output_ten_windows fundsEx 10 []).1, hmem,
         (output_ten_windows fundsEx 10 []).2 _ hmem⟩

/-- C9: when the number of funds with a numeric 12-month return is
positive but below 100, the top-50 and bottom-50 groups overlap: some
fund appears in both, so the final output holds (at least) two records
for that fund. -/
theorem splitTopBottom_overlap (recs : List FundRecord)
    (h1 : 0 < (recs.filter (fun r => (ret12 r).isSome)).length)
    (h2 : (recs.filter (fun r => (ret12 r).isSome)).length < 100) :
    ∃ r : FundRecord, (r, "상위 50개") ∈ splitTopBottom recs ∧
      (r, "하위 50개") ∈ splitTopBottom recs ∧
      2 ≤ (splitTopBottom recs).countP (fun p => decide (p.1 = r)) := by
  set valid := recs.filter (fun r => (ret12 r).isSome) with hvalid
  set sorted :=
    valid.mergeSort (fun a b => decide ((ret12 b).getD 0 ≤ (ret12 a).getD 0)) with hsorted
  have hsplit : splitTopBottom recs =
      (sorted.take 50).map (fun r => (r, "상위 50개")) ++
      (sorted.drop (sorted.length - 50)).map (fun r => (r, "하위 50개")) ++
      (recs.filter (fun r => !(ret12 r).isSome)).map (fun r => (r, "미출시(1년)")) := rfl
  have hlen : sorted.length = valid.length := List.length_mergeSort _
  have hn0 : 0 < sorted.length := by omega
  have hn100 : sorted.length < 100 := by omega
  have hidx : sorted.length - 50 < sorted.length := by omega
  have h50 : sorted.length - 50 < (List.take 50 sorted).length := by
    rw [List.length_take]; omega
  have htake : sorted.get ⟨sorted.length - 50, hidx⟩ ∈ List.take 50 sorted := by
    have hg : (List.take 50 sorted).get ⟨sorted.length - 50, h50⟩ =
        sorted.get ⟨sorted.length - 50, hidx⟩ := by
      simp [List.get_eq_getElem, List.getElem_take]
    rw [← hg]
    exact List.get_mem _ _ _
  have h0 : 0 < (List.drop (sorted.length - 50) sorted).length := by
    rw [List.length_drop]; omega
  have hdrop : sorted.get ⟨sorted.length - 50, hidx⟩ ∈
      List.drop (sorted.length - 50) sorted := by
    have hg : (List.drop (sorted.length - 50) sorted).get ⟨0, h0⟩ =
        sorted.get ⟨sorted.length - 50, hidx⟩ := by
      simp [List.get_eq_getElem, List.getElem_drop]
    rw [← hg]
    exact List.get_mem _ _ _
  refine ⟨sorted.get ⟨sorted.length - 50, hidx⟩, ?_, ?_, ?_⟩
  · rw [hsplit]
    simp only [List.mem_append]
    exact Or.inl (Or.inl (List.mem_map_of_mem _ htake))
  · rw [hsplit]
    simp only [List.mem_append]
    exact Or.inl (Or.inr (List.mem_map_of_mem _ hdrop))
  · rw [hsplit]
    rw [List.countP_append, List.countP_append]
    have hc1 : 0 < ((sorted.take 50).map (fun r => (r, "상위 50개"))).countP
        (fun p => decide (p.1 = sorted.get ⟨sorted.length - 50, hidx⟩)) := by
      rw [List.countP_pos_iff]
      exact ⟨_, List.mem_map_of_mem _ htake, by simp⟩
    have hc2 : 0 < ((sorted.drop (sorted.length - 50)).map
        (fun r => (r, "하위 50개"))).countP
        (fun p => decide (p.1 = sorted.get ⟨sorted.length - 50, hidx⟩)) := by
      rw [List.countP_pos_iff]
      exact ⟨_, List.mem_map_of_mem _ hdrop, by simp⟩
    omega

/-- Witness for C9: one valid fund, so 0 < 1 < 100 and its record is
emitted in both the top-50 and the bottom-50 group. -/
theorem splitTopBottom_overlap_witness :
    ∃ r : FundRecord, (r, "상위 50개") ∈ splitTopBottom [recB] ∧
      (r, "하위 50개") ∈ splitTopBottom [recB] ∧
      2 ≤ (splitTopBottom [recB]).countP (fun p => decide (p.1 = r)) :=
  splitTopBottom_overlap [recB] (by decide) (by decide)

/-- C10: when the run starts on a Monday (`weekday = 0`) or a Sunday
(`weekday = 6`), the base-date lookup returns no date and the whole run
returns `none` with an empty event trace: no export file is written and
no Telegram message is sent. -/
theorem run_monday_sunday_none (api : ℤ → Bool) (t : Today) (funds : List FundInput)
    (h : t.weekday = 0 ∨ t.weekday = 6) :
    get_last_trading_day api t = none ∧ run api t funds = (none, []) := by
  have hg : get_last_trading_day api t = none := by
    unfold get_last_trading_day
    rw [if_pos h]
  exact ⟨hg, by simp [run, analyze_etfs, hg]⟩

/-- Witness for C10 at a Monday run. -/
theorem run_monday_sunday_none_witness :
    get_last_trading_day (fun _ => true) ⟨100, 0⟩ = none ∧
      run (fun _ => true) ⟨100, 0⟩ [] = (none, []) :=
  run_monday_sunday_none (fun _ => true) ⟨100, 0⟩ [] (Or.inl rfl)

end ETF
